import Mathlib

/-!
Verification of the goalz-gaia-orchestrator wiki pipeline.

Shallow embedding of `src/app/wiki_builder.py`, `src/app/clickup_client.py`
and the payload-salvage helpers of `src/app/routes.py`, with theorems
checking the natural-language specification against the code.
-/

set_option linter.unusedVariables false

namespace Orchestrator

/-! ## Data model (`src/app/models.py`) -/

/-- `WikiPage`: a single page in the wiki tree (recursive). -/
inductive WikiPage where
  | mk (title : String) (content : String) (children : List WikiPage)
deriving Repr

def WikiPage.title : WikiPage → String
  | .mk t _ _ => t

def WikiPage.content : WikiPage → String
  | .mk _ c _ => c

def WikiPage.children : WikiPage → List WikiPage
  | .mk _ _ cs => cs

/-- `PageResult`: result of uploading a single page. -/
inductive PageResult where
  | mk (title : String) (clickup_page_id : String) (status : String)
       (error : String) (children : List PageResult)
deriving Repr

def PageResult.title : PageResult → String
  | .mk t _ _ _ _ => t

def PageResult.clickup_page_id : PageResult → String
  | .mk _ i _ _ _ => i

def PageResult.status : PageResult → String
  | .mk _ _ s _ _ => s

def PageResult.error : PageResult → String
  | .mk _ _ _ e _ => e

def PageResult.children : PageResult → List PageResult
  | .mk _ _ _ _ cs => cs

inductive JobStatus where
  | queued | running | completed | failed
deriving Repr, DecidableEq

/-- `JobStatusResponse`: full status of a wiki-creation job. -/
structure JobStatusResponse where
  job_id : String
  status : JobStatus
  doc_id : String := ""
  workspace_id : String := ""
  total_pages : Nat := 0
  uploaded : Nat := 0
  failed : Nat := 0
  skipped : Nat := 0
  pages : List PageResult := []
  error : String := ""
deriving Repr

/-- `TargetLocation` after pydantic validation (optional ids). -/
structure TargetLocation where
  workspace_id : Option String := none
  space_id : Option String := none
  doc_id : Option String := none
  parent_page_id : Option String := none
deriving Repr

/-- `WikiCreateRequest`: top-level request body. -/
structure WikiCreateRequest where
  doc_name : String := "Wiki"
  target : TargetLocation
  pages : List WikiPage
deriving Repr

/-- Python truthiness of an `Optional[str]` field (`if not x`):
`None` and the empty string are falsy. -/
def pyTruthy : Option String → Bool
  | none => false
  | some s => !s.isEmpty

/-! ## Counting helper (`wiki_builder._count_pages`) -/

/-- `_count_pages`: `total = len(pages)` plus, for each page, the count of
its children subtree. -/
def countPages : List WikiPage → Nat
  | [] => 0
  | .mk _ _ cs :: rest => 1 + countPages cs + countPages rest

/-- Spec-side definition: the number of nodes of the full tree, counting
every node recursively (used to check `_count_pages` against the wording of the spec). -/
def numNodesList : List WikiPage → Nat
  | [] => 0
  | .mk _ _ cs :: rest => (1 + numNodesList cs) + numNodesList rest

/-! ## Recursive uploader (`wiki_builder._upload_pages`)

The ClickUp client is external; a call oracle maps the index of each
`create_page` call (in issue order) to its outcome: `.ok id` for a
successful creation returning page id `id` (`result.get("id", "")`),
`.error msg` for an exception whose `str` is `msg`. -/

/-- One `create_page` call as issued by the uploader. -/
structure CreateCall where
  title : String
  content : String
  parent_page_id : Option String
deriving Repr, DecidableEq

/-- The mutable context threaded through `_upload_pages`: the job record
(counters), the number of `create_page` calls issued so far, and the trace
of those calls in order. -/
structure UploadState where
  job : JobStatusResponse
  idx : Nat := 0
  calls : List CreateCall := []
deriving Repr

/-- `_upload_pages`: walk `pages` in order; for each page issue a
`create_page` call; on success mark the result `uploaded`, bump
`job.uploaded` and recurse into the children with the fresh page id as
parent; on an exception mark the result `failed` with the message, bump
`job.failed`, and do not recurse; then continue with the rest of the
list. Returns the final state and the result nodes appended at this
level. -/
def uploadPagesGo (oracle : Nat → Except String String) :
    Option String → UploadState → List WikiPage → UploadState × List PageResult
  | _, s, [] => (s, [])
  | parent, s, .mk title content children :: rest =>
    match oracle s.idx with
    | .ok pid =>
      match uploadPagesGo oracle (some pid)
          { s with idx := s.idx + 1,
                   calls := s.calls ++ [⟨title, content, parent⟩],
                   job := { s.job with uploaded := s.job.uploaded + 1 } }
          children with
      | (s2, cres) =>
        match uploadPagesGo oracle parent s2 rest with
        | (s3, rres) => (s3, PageResult.mk title pid "uploaded" "" cres :: rres)
    | .error msg =>
      match uploadPagesGo oracle parent
          { s with idx := s.idx + 1,
                   calls := s.calls ++ [⟨title, content, parent⟩],
                   job := { s.job with failed := s.job.failed + 1 } }
          rest with
      | (s2, rres) => (s2, PageResult.mk title "" "failed" msg [] :: rres)

/-! ## Measures over result trees (for stating the theorems) -/

/-- Number of result nodes in a result forest, counting every node. -/
def countResults : List PageResult → Nat
  | [] => 0
  | .mk _ _ _ _ cs :: rest => 1 + countResults cs + countResults rest

/-- Number of result nodes (recursively) carrying a given status. -/
def countStatus (st : String) : List PageResult → Nat
  | [] => 0
  | .mk _ _ s _ cs :: rest =>
    (if s = st then 1 else 0) + countStatus st cs + countStatus st rest

/-- Shape relation between an input forest and a result forest: one result
node per input node at this level, in the same order with the same titles;
a `failed` result node has no result children at all (its input subtree was
skipped), any other result node recursively matches its input children. -/
def shapeOkList : List WikiPage → List PageResult → Bool
  | [], [] => true
  | .mk t _ cs :: ps, .mk t2 _ st _ rs :: qs =>
    (t == t2) && (if st == "failed" then rs.isEmpty else shapeOkList cs rs)
      && shapeOkList ps qs
  | _, _ => false

/-- Spec-side definition of the expected call sequence: a depth-first,
left-to-right walk of the input forest in which the call for each node
carries the parent reference it was reached with, and the children of the
node reached by call number `i` are reached with parent reference
`ids i` (the remote id returned by that call). Returns the calls and the
next call number. -/
def dfsCalls (ids : Nat → String) :
    Option String → Nat → List WikiPage → List CreateCall × Nat
  | _, i, [] => ([], i)
  | parent, i, .mk t c cs :: rest =>
    let sub := dfsCalls ids (some (ids i)) (i + 1) cs
    let rst := dfsCalls ids parent sub.2 rest
    (⟨t, c, parent⟩ :: (sub.1 ++ rst.1), rst.2)

/-! ## Job creation (`wiki_builder.run_wiki_creation`) -/

/-- `run_wiki_creation` (synchronous part): allocate a fresh job record
with `status=queued` and `total_pages` from `_count_pages`, and store it.
The generated uuid is a parameter. -/
def runWikiCreation (job_id : String) (request : WikiCreateRequest) :
    JobStatusResponse :=
  { job_id := job_id, status := JobStatus.queued,
    total_pages := countPages request.pages }

/-! ## Background execution (`wiki_builder._execute_job`)

The other ClickUp calls made before the tree walk are external too:
`get_teams()` either raises (message) or returns the team list (each with
its stringified `id`), and `create_doc` either raises or returns the new
doc id (`doc.get("id", "")`). -/

/-- One entry of the `get_teams()` response (`str(team["id"])`). -/
structure Team where
  id : String
  name : String
deriving Repr

/-- Outcomes of the external ClickUp calls made by `_execute_job`. -/
structure ExecEnv where
  getTeams : Except String (List Team)
  createDoc : Except String String
  pageOracle : Nat → Except String String

/-- The workspace-resolution step of `_execute_job`: use
`request.target.workspace_id` if truthy, otherwise call `get_teams()` and
take the id of the first team, raising `RuntimeError` when the list is empty. -/
def resolveWorkspaceId (env : ExecEnv) (t : TargetLocation) :
    Except String String :=
  if pyTruthy t.workspace_id then .ok (t.workspace_id.getD "")
  else
    match env.getTeams with
    | .error e => .error e
    | .ok [] => .error "No ClickUp workspaces found for this API key"
    | .ok (team :: _) => .ok team.id

/-- The doc-resolution step of `_execute_job`: use `request.target.doc_id`
if truthy; otherwise require a truthy `space_id` (else `ValueError`) and
call `create_doc`. -/
def resolveDocId (env : ExecEnv) (t : TargetLocation) : Except String String :=
  if pyTruthy t.doc_id then .ok (t.doc_id.getD "")
  else if !pyTruthy t.space_id then
    .error ("Either target.doc_id (existing doc) or target.space_id " ++
            "(to create a new doc) must be provided.")
  else env.createDoc

/-- `_execute_job`: set the job `running`, resolve the workspace and the
doc (recording each id on the job as soon as it is known), walk the tree
with `_upload_pages`, then set the terminal status from the `failed`
counter. Any exception raised before or during the above sets
`status=failed` and stores its message in `job.error`; the per-node
handler inside `_upload_pages` means the walk itself never raises. -/
def executeJob (env : ExecEnv) (request : WikiCreateRequest)
    (job0 : JobStatusResponse) : JobStatusResponse :=
  let job := { job0 with status := JobStatus.running }
  match resolveWorkspaceId env request.target with
  | .error e => { job with status := JobStatus.failed, error := e }
  | .ok wid =>
    let job := { job with workspace_id := wid }
    match resolveDocId env request.target with
    | .error e => { job with status := JobStatus.failed, error := e }
    | .ok did =>
      let job := { job with doc_id := did }
      let out := uploadPagesGo env.pageOracle request.target.parent_page_id
        { job := job, idx := 0, calls := [] } request.pages
      let job := { out.1.job with pages := out.2 }
      { job with
          status := if job.failed = 0 then JobStatus.completed
                    else JobStatus.failed }

/-! ## API client retry loop (`clickup_client.ClickUpClient._post`)

The network is external: an attempt oracle maps the 0-indexed number of
each network attempt to its outcome, either a connection-level failure
(`httpx.ConnectError` / `httpx.TimeoutException`) or an HTTP response with
a status code and body. Delays are exact rationals (the Python floats
`base_delay * 2 ** attempt` are exact binary values for these inputs). -/

/-- Outcome of one network attempt of `_post`. -/
inductive PostOutcome where
  | connErr (name : String)
  | status (code : Nat) (body : String)
deriving Repr, DecidableEq

/-- What `_post` raises: a re-raised connection error, or
`httpx.HTTPStatusError` out of `raise_for_status()`. -/
inductive PostError where
  | connErr (name : String)
  | httpStatus (code : Nat)
deriving Repr, DecidableEq

/-- Observable behaviour of one `_post` call: its return value or raised
error, the sleeps performed (in order), and how many network attempts
were made. -/
structure PostResult where
  result : Except PostError String
  sleeps : List ℚ
  attemptsMade : Nat
deriving Repr

/-- The statuses `_post` returns from directly: `(200, 201)`. -/
def isSuccessStatus (c : Nat) : Bool := c == 200 || c == 201

/-- The retryable statuses: `(429, 500, 502, 503)`. -/
def isTransientStatus (c : Nat) : Bool :=
  c == 429 || c == 500 || c == 502 || c == 503

/-- `httpx.Response.raise_for_status()` raises exactly on non-2xx. -/
def is2xx (c : Nat) : Bool := 200 ≤ c && c < 300

/-- A transient outcome in the sense of the spec: a connection-level failure or
a retryable HTTP status. -/
def isTransientOutcome : PostOutcome → Bool
  | .connErr _ => true
  | .status c _ => isTransientStatus c

/-- The `for attempt in range(self.retries)` loop of `_post`, followed by
the unconditional final attempt. `i` is the index of the next attempt,
`remaining` how many loop iterations are left, `sleeps` the sleeps so
far. Loop iteration: a connection error or a retryable status sleeps
`base_delay * 2 ** attempt` and continues; 200/201 returns the body; any
other status hits `raise_for_status()`, which raises for non-2xx (fatal)
and is a no-op for other 2xx codes (the loop then just continues, with no
sleep). Final attempt: 200/201 (or any other 2xx, where
`raise_for_status()` is a no-op) returns the body, anything else raises. -/
def postLoop (attempts : Nat → PostOutcome) (b : ℚ) :
    Nat → Nat → List ℚ → PostResult
  | i, 0, sleeps =>
    match attempts i with
    | .connErr n => ⟨.error (.connErr n), sleeps, i + 1⟩
    | .status c body =>
      if isSuccessStatus c then ⟨.ok body, sleeps, i + 1⟩
      else if is2xx c then ⟨.ok body, sleeps, i + 1⟩
      else ⟨.error (.httpStatus c), sleeps, i + 1⟩
  | i, rem + 1, sleeps =>
    match attempts i with
    | .connErr _ => postLoop attempts b (i + 1) rem (sleeps ++ [b * 2 ^ i])
    | .status c body =>
      if isSuccessStatus c then ⟨.ok body, sleeps, i + 1⟩
      else if isTransientStatus c then
        postLoop attempts b (i + 1) rem (sleeps ++ [b * 2 ^ i])
      else if is2xx c then postLoop attempts b (i + 1) rem sleeps
      else ⟨.error (.httpStatus c), sleeps, i + 1⟩

/-- `_post` with configured `retries` and `base_delay`. -/
def post (retries : Nat) (b : ℚ) (attempts : Nat → PostOutcome) : PostResult :=
  postLoop attempts b 0 retries []

/-- Spec-side: result of the unconditional final attempt "as-is": a
connection error or a non-2xx status is raised, a 2xx body is returned. -/
def finalOutcome : PostOutcome → Except PostError String
  | .connErr n => .error (.connErr n)
  | .status c body => if is2xx c then .ok body else .error (.httpStatus c)

/-! ## Payload salvage (`routes._try_parse_wiki_json` and helpers)

A faithful executable model of the Python `json.loads` (objects, arrays,
strings with escapes, numbers, literals; strict control-character
checking; error kind and position as reported by the CPython decoder and
used by `_repair_json`), plus `_clean_rich_text` (with the core HTML
entities), `_repair_json`, `_normalize_pages`, `_normalize_wiki_payload`
and `_try_parse_wiki_json` itself. Python exceptions that the code does
not catch are modelled with `Except`. -/

/-- A decoded Python JSON value. -/
inductive PyJson where
  | null
  | bool (b : Bool)
  | int (n : ℤ)
  | float (q : ℚ)
  | str (s : String)
  | arr (xs : List PyJson)
  | obj (kvs : List (String × PyJson))
deriving Repr

/-- The classes of `json.JSONDecodeError` that `_repair_json` tells apart
by message, together with `e.pos`. -/
inductive JsonErrKind where
  | controlChar | invalidEscape | other
deriving Repr, DecidableEq

structure JsonErr where
  kind : JsonErrKind
  pos : Nat
deriving Repr, DecidableEq

/-- A Python exception escaping the salvage pipeline (everything it does
not catch; its `except` clauses catch only `JSONDecodeError`/`ValueError`). -/
inductive PyExc where
  | typeError (msg : String)
  | recursionError
deriving Repr, DecidableEq

/- Named characters (kept out of the surrounding syntax). -/

def bq : Char := Char.ofNat 96
def dq : Char := Char.ofNat 34
def sq : Char := Char.ofNat 39
def bsl : Char := Char.ofNat 92
def lcurl : Char := Char.ofNat 123
def rcurl : Char := Char.ofNat 125

/-- JSON whitespace skipped by the decoder. -/
def jsonWs (c : Char) : Bool := c == ' ' || c == '\t' || c == '\n' || c == '\r'

/-- Python `\s` / `str.strip()` whitespace (ASCII part). -/
def isPyWs (c : Char) : Bool :=
  c == ' ' || c == '\t' || c == '\n' || c == '\r' ||
  c == Char.ofNat 12 || c == Char.ofNat 11

def skipWs : List Char → Nat → List Char × Nat
  | [], p => ([], p)
  | c :: cs, p => if jsonWs c then skipWs cs (p + 1) else (c :: cs, p)

def hexVal (c : Char) : Option Nat :=
  if c.isDigit then some (c.toNat - 48)
  else if 'a' ≤ c && c ≤ 'f' then some (c.toNat - 87)
  else if 'A' ≤ c && c ≤ 'F' then some (c.toNat - 55)
  else none

/-- The JSON string scanner, after the opening quote. Invalid control
characters (< 0x20) and invalid escapes are reported with the kind and
position that CPython reports (the index of the control character itself; the
index of the character after the backslash). -/
def scanJString : List Char → Nat → List Char →
    Except JsonErr (String × List Char × Nat)
  | [], p, _ => .error ⟨.other, p⟩
  | c :: cs, p, acc =>
    if c == dq then .ok (String.mk acc.reverse, cs, p + 1)
    else if c == bsl then
      match cs with
      | [] => .error ⟨.other, p + 1⟩
      | e :: cs2 =>
        if e == dq then scanJString cs2 (p + 2) (dq :: acc)
        else if e == bsl then scanJString cs2 (p + 2) (bsl :: acc)
        else if e == '/' then scanJString cs2 (p + 2) ('/' :: acc)
        else if e == 'b' then scanJString cs2 (p + 2) (Char.ofNat 8 :: acc)
        else if e == 'f' then scanJString cs2 (p + 2) (Char.ofNat 12 :: acc)
        else if e == 'n' then scanJString cs2 (p + 2) ('\n' :: acc)
        else if e == 'r' then scanJString cs2 (p + 2) ('\r' :: acc)
        else if e == 't' then scanJString cs2 (p + 2) ('\t' :: acc)
        else if e == 'u' then
          match cs2 with
          | h1 :: h2 :: h3 :: h4 :: cs3 =>
            match hexVal h1, hexVal h2, hexVal h3, hexVal h4 with
            | some a, some b, some c', some d =>
              scanJString cs3 (p + 6)
                (Char.ofNat (((a * 16 + b) * 16 + c') * 16 + d) :: acc)
            | _, _, _, _ => .error ⟨.other, p + 2⟩
          | _ => .error ⟨.other, p + 2⟩
        else .error ⟨.invalidEscape, p + 1⟩
    else if c.toNat < 32 then .error ⟨.controlChar, p⟩
    else scanJString cs (p + 1) (c :: acc)

def digitsVal (ds : List Char) : Nat :=
  ds.foldl (fun n c => n * 10 + (c.toNat - 48)) 0

/-- JSON number grammar `-?(0|[1-9][0-9]*)(\.[0-9]+)?([eE][+-]?[0-9]+)?`,
maximal match; integer literals decode to Python `int`, the others to
`float` (represented exactly as a rational). -/
def parseNumber (cs : List Char) (p : Nat) :
    Except JsonErr (PyJson × List Char × Nat) :=
  let neg := cs.head? == some '-'
  let cs1 := if neg then cs.drop 1 else cs
  let p1 := if neg then p + 1 else p
  match cs1.head? with
  | none => .error ⟨.other, p⟩
  | some c =>
    if !c.isDigit then .error ⟨.other, p⟩
    else
      let ids := if c == '0' then ['0'] else cs1.takeWhile Char.isDigit
      let intPart := digitsVal ids
      let cs2 := cs1.drop ids.length
      let p2 := p1 + ids.length
      -- optional fraction
      let fds :=
        match cs2 with
        | '.' :: r => let d := r.takeWhile Char.isDigit
                      if d.isEmpty then [] else d
        | _ => []
      let cs3 := if fds.isEmpty then cs2 else cs2.drop (fds.length + 1)
      let p3 := if fds.isEmpty then p2 else p2 + fds.length + 1
      -- optional exponent
      let expo : Option (Bool × List Char) :=
        match cs3 with
        | e :: r =>
          if e == 'e' || e == 'E' then
            match r with
            | s :: r2 =>
              if s == '+' || s == '-' then
                let d := r2.takeWhile Char.isDigit
                if d.isEmpty then none else some (s == '-', d)
              else
                let d := r.takeWhile Char.isDigit
                if d.isEmpty then none else some (false, d)
            | [] => none
          else none
        | [] => none
      let elen := match expo with
        | none => 0
        | some (em, d) => 1 + (if em || cs3.get? 1 == some '+' then 1 else 0) + d.length
      let cs4 := cs3.drop elen
      let p4 := p3 + elen
      if fds.isEmpty && expo.isNone then
        .ok (.int (if neg then -(intPart : ℤ) else (intPart : ℤ)), cs2, p2)
      else
        let mant : ℚ := (intPart : ℚ) + (digitsVal fds : ℚ) / (10 : ℚ) ^ fds.length
        let withExp : ℚ :=
          match expo with
          | none => mant
          | some (em, d) =>
            if em then mant / (10 : ℚ) ^ digitsVal d
            else mant * (10 : ℚ) ^ digitsVal d
        .ok (.float (if neg then -withExp else withExp), cs4, p4)

/-- Python dict insertion: overwrite in place if the key exists, else
append. -/
def objSetL (kvs : List (String × PyJson)) (k : String) (v : PyJson) :
    List (String × PyJson) :=
  if kvs.any (·.1 == k) then kvs.map (fun kv => if kv.1 == k then (k, v) else kv)
  else kvs ++ [(k, v)]

def objGetL (kvs : List (String × PyJson)) (k : String) : Option PyJson :=
  (kvs.find? (·.1 == k)).map (·.2)

def objHasL (kvs : List (String × PyJson)) (k : String) : Bool :=
  kvs.any (·.1 == k)

def objPopL (kvs : List (String × PyJson)) (k : String) :
    List (String × PyJson) :=
  kvs.filter (·.1 != k)

/-- One JSON value; `fuel` bounds the nesting depth (the callers pass the
input length, which always suffices). List and object member loops are
factored out with the next-level parser passed in. -/
def parseListBody (pv : List Char → Nat → Except JsonErr (PyJson × List Char × Nat)) :
    Nat → List Char → Nat → List PyJson →
    Except JsonErr (List PyJson × List Char × Nat)
  | 0, _, p, _ => .error ⟨.other, p⟩
  | fuel + 1, cs, p, acc =>
    match pv cs p with
    | .error e => .error e
    | .ok (v, cs1, p1) =>
      let (cs2, p2) := skipWs cs1 p1
      match cs2 with
      | ',' :: rest => parseListBody pv fuel rest (p2 + 1) (acc ++ [v])
      | ']' :: rest => .ok (acc ++ [v], rest, p2 + 1)
      | _ => .error ⟨.other, p2⟩

def parseObjBody (pv : List Char → Nat → Except JsonErr (PyJson × List Char × Nat)) :
    Nat → List Char → Nat → List (String × PyJson) →
    Except JsonErr (List (String × PyJson) × List Char × Nat)
  | 0, _, p, _ => .error ⟨.other, p⟩
  | fuel + 1, cs, p, acc =>
    match cs with
    | c :: rest =>
      if c == dq then
        match scanJString rest (p + 1) [] with
        | .error e => .error e
        | .ok (k, cs1, p1) =>
          let (cs2, p2) := skipWs cs1 p1
          match cs2 with
          | ':' :: cs3 =>
            match pv cs3 (p2 + 1) with
            | .error e => .error e
            | .ok (v, cs4, p4) =>
              let acc := objSetL acc k v
              let (cs5, p5) := skipWs cs4 p4
              match cs5 with
              | ',' :: cs6 =>
                let (cs7, p7) := skipWs cs6 (p5 + 1)
                parseObjBody pv fuel cs7 p7 acc
              | c2 :: cs6 =>
                if c2 == rcurl then .ok (acc, cs6, p5 + 1)
                else .error ⟨.other, p5⟩
              | [] => .error ⟨.other, p5⟩
          | _ => .error ⟨.other, p2⟩
      else .error ⟨.other, p⟩
    | [] => .error ⟨.other, p⟩

def parseValue : Nat → List Char → Nat →
    Except JsonErr (PyJson × List Char × Nat)
  | 0, _, p => .error ⟨.other, p⟩
  | fuel + 1, cs0, p0 =>
    let (cs, p) := skipWs cs0 p0
    match cs with
    | [] => .error ⟨.other, p⟩
    | c :: rest =>
      if c == lcurl then
        let (cs1, p1) := skipWs rest (p + 1)
        match cs1 with
        | c1 :: cs2 =>
          if c1 == rcurl then .ok (.obj [], cs2, p1 + 1)
          else
            match parseObjBody (parseValue fuel) fuel cs1 p1 [] with
            | .error e => .error e
            | .ok (kvs, cs2, p2) => .ok (.obj kvs, cs2, p2)
        | [] => .error ⟨.other, p1⟩
      else if c == '[' then
        let (cs1, p1) := skipWs rest (p + 1)
        match cs1 with
        | ']' :: cs2 => .ok (.arr [], cs2, p1 + 1)
        | _ =>
          match parseListBody (parseValue fuel) fuel cs1 p1 [] with
          | .error e => .error e
          | .ok (xs, cs2, p2) => .ok (.arr xs, cs2, p2)
      else if c == dq then
        match scanJString rest (p + 1) [] with
        | .error e => .error e
        | .ok (s, cs1, p1) => .ok (.str s, cs1, p1)
      else if c == '-' || c.isDigit then parseNumber cs p
      else
        match cs with
        | 't' :: 'r' :: 'u' :: 'e' :: cs1 => .ok (.bool true, cs1, p + 4)
        | 'f' :: 'a' :: 'l' :: 's' :: 'e' :: cs1 => .ok (.bool false, cs1, p + 5)
        | 'n' :: 'u' :: 'l' :: 'l' :: cs1 => .ok (.null, cs1, p + 4)
        | _ => .error ⟨.other, p⟩

/-- `json.loads`: parse one value, then require only whitespace after it
("Extra data" otherwise). -/
def jsonLoads (s : String) : Except JsonErr PyJson :=
  match parseValue (s.data.length + 1) s.data 0 with
  | .error e => .error e
  | .ok (v, rest, p) =>
    let (rest1, p1) := skipWs rest p
    if rest1.isEmpty then .ok v else .error ⟨.other, p1⟩

/-! ### `_normalize_pages` / `_normalize_wiki_payload` -/

/-- The CPython message of the `TypeError` raised when iterating a
non-iterable value of the named type. -/
def notIterableMsg (tyname : String) : String :=
  String.mk [sq] ++ tyname ++ String.mk [sq] ++ " object is not iterable"

/-- Python iteration (`for p in x`): lists yield elements, strings yield
one-character strings, dicts yield their keys; anything else raises
`TypeError`. -/
def pyIter : PyJson → Except PyExc (List PyJson)
  | .arr xs => .ok xs
  | .str s => .ok (s.data.map fun c => .str (String.mk [c]))
  | .obj kvs => .ok (kvs.map fun kv => .str kv.1)
  | .null => .error (.typeError (notIterableMsg "NoneType"))
  | .bool _ => .error (.typeError (notIterableMsg "bool"))
  | .int _ => .error (.typeError (notIterableMsg "int"))
  | .float _ => .error (.typeError (notIterableMsg "float"))

/-- The loop body of `_normalize_pages`: skip non-dicts; move `summary`
to `content` when `content` is absent; recurse (`np`, the next level of
`_normalize_pages`) into `p.get("children", [])` and store the result
under `children`. -/
def normalizeItems (np : PyJson → Except PyExc PyJson) :
    List PyJson → Except PyExc (List PyJson)
  | [] => .ok []
  | p :: rest =>
    match p with
    | .obj kvs =>
      let kvs1 :=
        if !objHasL kvs "content" && objHasL kvs "summary" then
          objSetL (objPopL kvs "summary") "content"
            ((objGetL kvs "summary").getD .null)
        else kvs
      match np ((objGetL kvs1 "children").getD (.arr [])) with
      | .error e => .error e
      | .ok cnorm =>
        match normalizeItems np rest with
        | .error e => .error e
        | .ok out => .ok (.obj (objSetL kvs1 "children" cnorm) :: out)
    | _ => normalizeItems np rest

/-- `_normalize_pages` (fuel bounds the recursion depth; callers pass the
input text length, which always suffices, so running out models the Python
`RecursionError`). -/
def normalizePages : Nat → PyJson → Except PyExc PyJson
  | 0, _ => .error .recursionError
  | fuel + 1, pages =>
    match pyIter pages with
    | .error e => .error e
    | .ok items =>
      match normalizeItems (normalizePages fuel) items with
      | .error e => .error e
      | .ok out => .ok (.arr out)

def isDict : PyJson → Bool
  | .obj _ => true
  | _ => false

def hasKey : PyJson → String → Bool
  | .obj kvs, k => objHasL kvs k
  | _, _ => false

/-- `_normalize_wiki_payload`: `target_url` becomes `target.url`; a bare
string `target` is wrapped; a list-valued `pages` entry is run through
`_normalize_pages` (which may raise). Only ever called on dicts. -/
def normalizeWikiPayload (fuel : Nat) : PyJson → Except PyExc PyJson
  | .obj kvs =>
    let kvs1 :=
      if objHasL kvs "target_url" && !objHasL kvs "target" then
        objSetL (objPopL kvs "target_url") "target"
          (.obj [("url", (objGetL kvs "target_url").getD .null)])
      else kvs
    let kvs2 :=
      match objGetL kvs1 "target" with
      | some (.str s) => objSetL kvs1 "target" (.obj [("url", .str s)])
      | _ => kvs1
    match objGetL kvs2 "pages" with
    | some (.arr xs) =>
      match normalizePages fuel (.arr xs) with
      | .error e => .error e
      | .ok pnorm => .ok (.obj (objSetL kvs2 "pages" pnorm))
    | _ => .ok (.obj kvs2)
  | v => .ok v

/-! ### `_repair_json` -/

/-- The pre-pass `re.sub(r",(\s*[}\]])", r"\1", text)`: drop every comma
directly followed by optional whitespace and a closing bracket (string
contents are not exempt, as in the Python). -/
def stripTrailingCommas : Nat → List Char → List Char
  | 0, cs => cs
  | _ + 1, [] => []
  | fuel + 1, c :: rest =>
    if c == ',' then
      let ws := rest.takeWhile isPyWs
      match rest.drop ws.length with
      | b :: after =>
        if b == rcurl || b == ']' then
          ws ++ b :: stripTrailingCommas fuel after
        else c :: stripTrailingCommas fuel rest
      | [] => c :: stripTrailingCommas fuel rest
    else c :: stripTrailingCommas fuel rest

/-- The fix-and-retry loop of `_repair_json` (`max_fixes` rounds):
a control character at the reported position is replaced by its escape
(or deleted), an invalid escape gets a second backslash inserted at the
reported position, anything else stops the loop. -/
def repairLoop : Nat → String → String
  | 0, t => t
  | n + 1, t =>
    match jsonLoads t with
    | .ok _ => t
    | .error e =>
      if e.pos > t.data.length then t
      else
        match e.kind with
        | .controlChar =>
          if e.pos < t.data.length then
            let cs := t.data
            let ch := (cs.drop e.pos).headD ' '
            let repl : List Char :=
              if ch == '\n' then [bsl, 'n']
              else if ch == '\r' then [bsl, 'r']
              else if ch == '\t' then [bsl, 't']
              else []
            repairLoop n (String.mk (cs.take e.pos ++ repl ++ cs.drop (e.pos + 1)))
          else t
        | .invalidEscape =>
          if e.pos < t.data.length then
            let cs := t.data
            repairLoop n (String.mk (cs.take e.pos ++ bsl :: cs.drop e.pos))
          else t
        | .other => t

/-- `_repair_json` with its default `max_fixes = 5000`. -/
def repairJson (text : String) : String :=
  repairLoop 5000 (String.mk (stripTrailingCommas text.data.length text.data))

/-! ### `_clean_rich_text` -/

/-- `re.sub(r"<[^>]+>", "", text)`: drop each `<`…`>` span with a
non-empty body. -/
def stripTags : Nat → List Char → List Char
  | 0, cs => cs
  | _ + 1, [] => []
  | fuel + 1, c :: rest =>
    if c == '<' then
      let body := rest.takeWhile (· != '>')
      match rest.drop body.length with
      | '>' :: after =>
        if body.isEmpty then c :: stripTags fuel rest
        else stripTags fuel after
      | _ => c :: stripTags fuel rest
    else c :: stripTags fuel rest

/-- The value of one HTML entity body (between `&` and `;`): the named
entities the payloads use, plus numeric references. (The Python
`html.unescape` knows the full HTML5 table; the remainder is irrelevant
here.) -/
def entityValue (body : List Char) : Option Char :=
  match body with
  | ['q', 'u', 'o', 't'] => some dq
  | ['a', 'm', 'p'] => some '&'
  | ['l', 't'] => some '<'
  | ['g', 't'] => some '>'
  | ['a', 'p', 'o', 's'] => some sq
  | ['n', 'b', 's', 'p'] => some (Char.ofNat 160)
  | '#' :: 'x' :: ds =>
    if !ds.isEmpty && ds.all (fun c => (hexVal c).isSome) then
      some (Char.ofNat (ds.foldl (fun n c => n * 16 + (hexVal c).getD 0) 0))
    else none
  | '#' :: ds =>
    if !ds.isEmpty && ds.all Char.isDigit then
      some (Char.ofNat (digitsVal ds))
    else none
  | _ => none

/-- `html.unescape` (restricted to `entityValue`). -/
def htmlUnescape : Nat → List Char → List Char
  | 0, cs => cs
  | _ + 1, [] => []
  | fuel + 1, c :: rest =>
    if c == '&' then
      let body := rest.takeWhile (fun x => x != ';' && x != '&' && !isPyWs x)
      match rest.drop body.length with
      | ';' :: after =>
        match entityValue body with
        | some v => v :: htmlUnescape fuel after
        | none => c :: htmlUnescape fuel rest
      | _ => c :: htmlUnescape fuel rest
    else c :: htmlUnescape fuel rest

/-- `str.strip()` (ASCII whitespace). -/
def pyStrip (s : String) : String :=
  String.mk (((s.data.dropWhile isPyWs).reverse.dropWhile isPyWs).reverse)

/-- The smart-quote and whitespace character fixes of `_clean_rich_text`:
curly double quotes become `"`, curly single quotes become an ASCII single quote,
non-breaking spaces become plain spaces, zero-width spaces are dropped. -/
def fixChars (cs : List Char) : List Char :=
  (cs.map fun c =>
    if c == Char.ofNat 0x201c || c == Char.ofNat 0x201d ||
       c == Char.ofNat 0x201e then dq
    else if c == Char.ofNat 0x2018 || c == Char.ofNat 0x2019 then sq
    else if c == Char.ofNat 0xa0 then ' '
    else c).filter (· != Char.ofNat 0x200b)

/-- `_clean_rich_text`: strip tags, unescape entities, fix quote and
whitespace characters, strip. -/
def cleanRichText (text : String) : String :=
  let cs := stripTags text.data.length text.data
  let cs := htmlUnescape cs.length cs
  pyStrip (String.mk (fixChars cs))

/-! ### `_try_parse_wiki_json` -/

/-- Split at the first triple-backtick fence: the text before it and the
text after it. -/
def splitAtFence : Nat → List Char → List Char →
    Option (List Char × List Char)
  | 0, _, _ => none
  | _ + 1, _, [] => none
  | fuel + 1, acc, c1 :: cs =>
    match cs with
    | c2 :: c3 :: rest =>
      if c1 == bq && c2 == bq && c3 == bq then some (acc.reverse, rest)
      else splitAtFence fuel (c1 :: acc) cs
    | _ => none

def isWordChar (c : Char) : Bool := c.isAlphanum || c == '_'

/-- `re.findall(r"```(?:\w*\n|\n)?(.*?)```", text, re.DOTALL)`: the list
of captured block bodies; after the opening fence an optional language
tag line (a word-character run ending in a newline, or a bare newline) is
skipped, and the body extends lazily to the next fence. -/
def collectBlocks : Nat → List Char → List String
  | 0, _ => []
  | fuel + 1, cs =>
    match splitAtFence cs.length [] cs with
    | none => []
    | some (_, rest) =>
      let w := rest.takeWhile isWordChar
      let rest2 :=
        match rest.drop w.length with
        | '\n' :: r => r
        | _ => rest
      match splitAtFence rest2.length [] rest2 with
      | none => []
      | some (body, after) => String.mk body :: collectBlocks fuel after

def posFind (cs : List Char) (t : Char) : Option Nat := cs.findIdx? (· == t)

def posRfind (cs : List Char) (t : Char) : Option Nat :=
  match cs.reverse.findIdx? (· == t) with
  | none => none
  | some i => some (cs.length - 1 - i)

/-- Result of the extractor: a raised exception, or `some payload` /
`none` (NotFound). -/
abbrev ExtractResult := Except PyExc (Option PyJson)

/-- Sequencing of salvage attempts: an earlier raised exception or found
payload wins, otherwise try the next attempt. -/
def orElseE (a b : ExtractResult) : ExtractResult :=
  match a with
  | .error e => .error e
  | .ok (some v) => .ok (some v)
  | .ok none => b

/-- One parse-and-accept attempt, as repeated throughout
`_try_parse_wiki_json`: `json.loads` failures are caught (the `except`
clauses), and a dict with a `pages` key is returned after
`_normalize_wiki_payload` (whose `TypeError` is not caught and
propagates). -/
def acceptCandidate (fuel : Nat) (candidate : String) : ExtractResult :=
  match jsonLoads candidate with
  | .error _ => .ok none
  | .ok data =>
    if isDict data && hasKey data "pages" then
      match normalizeWikiPayload fuel data with
      | .error e => .error e
      | .ok d => .ok (some d)
    else .ok none

/-- Strategy 0 of `_try_parse_wiki_json`: each fenced block, stripped and
skipped when empty, tried raw and then repaired. -/
def tryBlocks (fuel : Nat) : List String → ExtractResult
  | [] => .ok none
  | b :: rest =>
    let b := pyStrip b
    if b.isEmpty then tryBlocks fuel rest
    else
      orElseE (orElseE (acceptCandidate fuel b)
                       (acceptCandidate fuel (repairJson b)))
              (tryBlocks fuel rest)

/-- Strategies 1+ on one attempt text: direct parse, then the
`find("{")`/`rfind("}")` substring raw and repaired. -/
def tryAttempt (fuel : Nat) (attempt : String) : ExtractResult :=
  if attempt.isEmpty then .ok none
  else
    orElseE (acceptCandidate fuel attempt)
      (match posFind attempt.data lcurl, posRfind attempt.data rcurl with
       | some st, some en =>
         if st < en then
           let candidate := String.mk ((attempt.data.drop st).take (en - st + 1))
           orElseE (acceptCandidate fuel candidate)
                   (acceptCandidate fuel (repairJson candidate))
         else .ok none
       | _, _ => .ok none)

/-- `_try_parse_wiki_json`: fenced code blocks first, then the raw
(stripped) text, then the rich-text-cleaned text. -/
def tryParseWikiJson (text : String) : ExtractResult :=
  let fuel := text.data.length + 1
  orElseE (tryBlocks fuel (collectBlocks text.data.length text.data))
    (orElseE (tryAttempt fuel (pyStrip text))
             (tryAttempt fuel (cleanRichText text)))

/-! ## Concrete instances used by witnesses and counterexamples -/

/-- The expected sleeps of the retry loop, written as the loop produces
them: `base_delay * 2 ** attempt` for each scheduled retry starting at
attempt `i`. -/
def delaysFrom (b : ℚ) : Nat → Nat → List ℚ
  | _, 0 => []
  | i, rem + 1 => b * 2 ^ i :: delaysFrom b (i + 1) rem

/-- Tree `A(B)`: one root with one child. -/
def pageAB : WikiPage := .mk "A" "a-body" [.mk "B" "b-body" []]

/-- Tree `A(B(D), C)` from the depth-first example of the spec. -/
def pagesABDC : List WikiPage :=
  [.mk "A" "" [.mk "B" "" [.mk "D" "" []], .mk "C" "" []]]

/-- Two top-level pages with two children each (the `total_pages`
example of the spec). -/
def pagesTwoByTwo : List WikiPage :=
  [.mk "P1" "" [.mk "P1a" "" [], .mk "P1b" "" []],
   .mk "P2" "" [.mk "P2a" "" [], .mk "P2b" "" []]]

/-- A request whose target carries explicit workspace and doc ids (the
pre-walk steps cannot fail on it). -/
def reqAB : WikiCreateRequest :=
  { doc_name := "Wiki",
    target := { workspace_id := some "w1", doc_id := some "d1" },
    pages := [pageAB] }

def reqABDC : WikiCreateRequest :=
  { doc_name := "Wiki",
    target := { workspace_id := some "w1", doc_id := some "d1" },
    pages := pagesABDC }

/-- An environment whose every `create_page` call raises `boom`. -/
def envFail : ExecEnv :=
  { getTeams := .ok [], createDoc := .ok "d1",
    pageOracle := fun _ => .error "boom" }

/-- An environment whose every `create_page` call succeeds, returning
`pg0`, `pg1`, … in call order. -/
def envOk : ExecEnv :=
  { getTeams := .ok [], createDoc := .ok "d1",
    pageOracle := fun i => .ok ("pg" ++ toString i) }

/-- A fresh job state for walking concrete trees. -/
def freshState (pages : List WikiPage) : UploadState :=
  { job := runWikiCreation "job1" ⟨"Wiki", {}, pages⟩, idx := 0, calls := [] }

/-! ## Helper lemmas about the uploader walk -/

theorem walk_uploaded (oracle : Nat → Except String String) :
    ∀ parent s pages,
      ((uploadPagesGo oracle parent s pages).1).job.uploaded =
        s.job.uploaded +
          countStatus "uploaded" (uploadPagesGo oracle parent s pages).2 := by
  intro parent s pages
  induction parent, s, pages using uploadPagesGo.induct oracle with
  | case1 parent s => simp [uploadPagesGo, countStatus]
  | case2 parent s title content children rest pid heq s2 cres hc s3 rres hr ihc ihr =>
    simp only [uploadPagesGo, heq, hc, hr, countStatus] at *
    simp_all
    omega
  | case3 parent s title content children rest msg heq s2 rres hr ihr =>
    simp only [uploadPagesGo, heq, hr, countStatus] at *
    simp_all

theorem walk_failed (oracle : Nat → Except String String) :
    ∀ parent s pages,
      ((uploadPagesGo oracle parent s pages).1).job.failed =
        s.job.failed +
          countStatus "failed" (uploadPagesGo oracle parent s pages).2 := by
  intro parent s pages
  induction parent, s, pages using uploadPagesGo.induct oracle with
  | case1 parent s => simp [uploadPagesGo, countStatus]
  | case2 parent s title content children rest pid heq s2 cres hc s3 rres hr ihc ihr =>
    simp only [uploadPagesGo, heq, hc, hr, countStatus] at *
    simp_all
    omega
  | case3 parent s title content children rest msg heq s2 rres hr ihr =>
    simp only [uploadPagesGo, heq, hr, countStatus] at *
    simp_all
    omega

theorem walk_skipped (oracle : Nat → Except String String) :
    ∀ parent s pages,
      ((uploadPagesGo oracle parent s pages).1).job.skipped =
        s.job.skipped := by
  intro parent s pages
  induction parent, s, pages using uploadPagesGo.induct oracle with
  | case1 parent s => simp [uploadPagesGo]
  | case2 parent s title content children rest pid heq s2 cres hc s3 rres hr ihc ihr =>
    simp only [uploadPagesGo, heq, hc, hr] at *
    simp_all
  | case3 parent s title content children rest msg heq s2 rres hr ihr =>
    simp only [uploadPagesGo, heq, hr] at *
    simp_all

theorem walk_error_field (oracle : Nat → Except String String) :
    ∀ parent s pages,
      ((uploadPagesGo oracle parent s pages).1).job.error = s.job.error := by
  intro parent s pages
  induction parent, s, pages using uploadPagesGo.induct oracle with
  | case1 parent s => simp [uploadPagesGo]
  | case2 parent s title content children rest pid heq s2 cres hc s3 rres hr ihc ihr =>
    simp only [uploadPagesGo, heq, hc, hr] at *
    simp_all
  | case3 parent s title content children rest msg heq s2 rres hr ihr =>
    simp only [uploadPagesGo, heq, hr] at *
    simp_all

theorem walk_total_pages (oracle : Nat → Except String String) :
    ∀ parent s pages,
      ((uploadPagesGo oracle parent s pages).1).job.total_pages =
        s.job.total_pages := by
  intro parent s pages
  induction parent, s, pages using uploadPagesGo.induct oracle with
  | case1 parent s => simp [uploadPagesGo]
  | case2 parent s title content children rest pid heq s2 cres hc s3 rres hr ihc ihr =>
    simp only [uploadPagesGo, heq, hc, hr] at *
    simp_all
  | case3 parent s title content children rest msg heq s2 rres hr ihr =>
    simp only [uploadPagesGo, heq, hr] at *
    simp_all

theorem walk_status_split (oracle : Nat → Except String String) :
    ∀ parent s pages,
      countStatus "uploaded" (uploadPagesGo oracle parent s pages).2 +
        countStatus "failed" (uploadPagesGo oracle parent s pages).2 =
        countResults (uploadPagesGo oracle parent s pages).2 := by
  intro parent s pages
  induction parent, s, pages using uploadPagesGo.induct oracle with
  | case1 parent s => simp [uploadPagesGo, countStatus, countResults]
  | case2 parent s title content children rest pid heq s2 cres hc s3 rres hr ihc ihr =>
    simp only [uploadPagesGo, heq, hc, hr, countStatus, countResults] at *
    simp_all
    omega
  | case3 parent s title content children rest msg heq s2 rres hr ihr =>
    simp only [uploadPagesGo, heq, hr, countStatus, countResults] at *
    simp_all
    omega

theorem walk_count_le (oracle : Nat → Except String String) :
    ∀ parent s pages,
      countResults (uploadPagesGo oracle parent s pages).2 ≤
        countPages pages := by
  intro parent s pages
  induction parent, s, pages using uploadPagesGo.induct oracle with
  | case1 parent s => simp [uploadPagesGo, countResults, countPages]
  | case2 parent s title content children rest pid heq s2 cres hc s3 rres hr ihc ihr =>
    simp only [uploadPagesGo, heq, hc, hr, countResults, countPages] at *
    simp_all
    omega
  | case3 parent s title content children rest msg heq s2 rres hr ihr =>
    simp only [uploadPagesGo, heq, hr, countResults, countPages] at *
    simp_all
    omega

theorem walk_shape (oracle : Nat → Except String String) :
    ∀ parent s pages,
      shapeOkList pages (uploadPagesGo oracle parent s pages).2 = true := by
  intro parent s pages
  induction parent, s, pages using uploadPagesGo.induct oracle with
  | case1 parent s => simp [uploadPagesGo, shapeOkList]
  | case2 parent s title content children rest pid heq s2 cres hc s3 rres hr ihc ihr =>
    simp only [uploadPagesGo, heq, hc, hr, shapeOkList] at *
    simp_all
  | case3 parent s title content children rest msg heq s2 rres hr ihr =>
    simp only [uploadPagesGo, heq, hr, shapeOkList] at *
    simp_all

theorem walk_calls_ok (ids : Nat → String) :
    ∀ parent s pages,
      (uploadPagesGo (fun i => .ok (ids i)) parent s pages).1.calls =
          s.calls ++ (dfsCalls ids parent s.idx pages).1 ∧
        (uploadPagesGo (fun i => .ok (ids i)) parent s pages).1.idx =
          (dfsCalls ids parent s.idx pages).2 := by
  intro parent s pages
  induction parent, s, pages using uploadPagesGo.induct (fun i => .ok (ids i)) with
  | case1 parent s => simp [uploadPagesGo, dfsCalls]
  | case2 parent s title content children rest pid heq s2 cres hc s3 rres hr ihc ihr =>
    injection heq with heq
    subst heq
    simp only [uploadPagesGo, hc, hr, dfsCalls] at *
    obtain ⟨ihc1, ihc2⟩ := ihc
    obtain ⟨ihr1, ihr2⟩ := ihr
    simp only [ihc2] at ihr1 ihr2
    simp [ihr1, ihc1, ihr2]
  | case3 parent s title content children rest msg heq s2 rres hr ihr =>
    simp at heq

theorem countPages_eq_numNodes :
    ∀ pages, countPages pages = numNodesList pages := by
  intro pages
  induction pages using countPages.induct with
  | case1 => simp [countPages, numNodesList]
  | case2 t c cs rest ih1 ih2 => simp [countPages, numNodesList, ih1, ih2]

/-! ## Helper lemmas about the retry loop -/

theorem success_is_2xx (c : Nat) (h : isSuccessStatus c = true) :
    is2xx c = true := by
  simp [isSuccessStatus] at h
  rcases h with h | h <;> subst h <;> rfl

theorem transient_not_success (c : Nat) (h : isTransientStatus c = true) :
    isSuccessStatus c = false := by
  simp [isTransientStatus] at h
  rcases h with ((h | h) | h) | h <;> subst h <;> rfl

theorem postLoop_bound (attempts : Nat → PostOutcome) (b : ℚ) :
    ∀ rem i sleeps,
      (postLoop attempts b i rem sleeps).attemptsMade ≤ i + rem + 1 := by
  intro rem
  induction rem with
  | zero =>
    intro i sleeps
    cases h : attempts i <;> simp [postLoop, h]
    split_ifs <;> simp
  | succ n ih =>
    intro i sleeps
    cases h : attempts i with
    | connErr nm =>
      simp only [postLoop, h]
      exact le_trans (ih (i + 1) _) (by omega)
    | status c body =>
      simp only [postLoop, h]
      split_ifs with h1 h2 h3
      · simp
      · exact le_trans (ih (i + 1) _) (by omega)
      · exact le_trans (ih (i + 1) _) (by omega)
      · simp

theorem postLoop_all_transient (attempts : Nat → PostOutcome) (b : ℚ) :
    ∀ rem i sleeps,
      (∀ j, j < rem → isTransientOutcome (attempts (i + j)) = true) →
      postLoop attempts b i rem sleeps =
        ⟨finalOutcome (attempts (i + rem)), sleeps ++ delaysFrom b i rem,
          i + rem + 1⟩ := by
  intro rem
  induction rem with
  | zero =>
    intro i sleeps _
    simp only [Nat.add_zero]
    cases h : attempts i with
    | connErr nm => simp [postLoop, h, finalOutcome, delaysFrom]
    | status c body =>
      simp only [postLoop, h, finalOutcome, delaysFrom]
      split_ifs with h1 h2 h3
      · simp
      · exact absurd (success_is_2xx c h1) h2
      · simp
      · simp
  | succ n ih =>
    intro i sleeps htr
    have h0 : isTransientOutcome (attempts i) = true := by
      have := htr 0 (by omega)
      simpa using this
    have hshift : ∀ j, j < n → isTransientOutcome (attempts (i + 1 + j)) = true := by
      intro j hj
      have := htr (j + 1) (by omega)
      have e : i + (j + 1) = i + 1 + j := by omega
      rwa [e] at this
    have e1 : i + 1 + n = i + (n + 1) := by omega
    cases h : attempts i with
    | connErr nm =>
      simp only [postLoop, h]
      rw [ih (i + 1) (sleeps ++ [b * 2 ^ i]) hshift]
      simp [delaysFrom, e1]
    | status c body =>
      have htc : isTransientStatus c = true := by
        rw [h] at h0; simpa [isTransientOutcome] using h0
      simp only [postLoop, h, transient_not_success c htc, htc, Bool.false_eq_true,
        if_false, if_true]
      rw [ih (i + 1) (sleeps ++ [b * 2 ^ i]) hshift]
      simp [delaysFrom, e1]

theorem postLoop_fatal (attempts : Nat → PostOutcome) (b : ℚ) :
    ∀ k rem i sleeps c body,
      k < rem →
      (∀ j, j < k → isTransientOutcome (attempts (i + j)) = true) →
      attempts (i + k) = .status c body →
      isTransientStatus c = false →
      is2xx c = false →
      postLoop attempts b i rem sleeps =
        ⟨.error (.httpStatus c), sleeps ++ delaysFrom b i k, i + k + 1⟩ := by
  intro k
  induction k with
  | zero =>
    intro rem i sleeps c body hlt _ hat htc h2
    match rem, hlt with
    | m + 1, _ =>
      simp only [Nat.add_zero] at hat
      have hsucc : isSuccessStatus c = false := by
        cases hs : isSuccessStatus c
        · rfl
        · rw [success_is_2xx c hs] at h2; cases h2
      simp [postLoop, hat, hsucc, htc, h2, delaysFrom]
  | succ n ih =>
    intro rem i sleeps c body hlt htr hat htc h2
    match rem, hlt with
    | m + 1, hlt =>
      have h0 : isTransientOutcome (attempts i) = true := by
        have := htr 0 (by omega)
        simpa using this
      have hshift : ∀ j, j < n → isTransientOutcome (attempts (i + 1 + j)) = true := by
        intro j hj
        have := htr (j + 1) (by omega)
        have e : i + (j + 1) = i + 1 + j := by omega
        rwa [e] at this
      have hat1 : attempts (i + 1 + n) = .status c body := by
        have e : i + (n + 1) = i + 1 + n := by omega
        rwa [e] at hat
      have e1 : i + 1 + n = i + (n + 1) := by omega
      cases h : attempts i with
      | connErr nm =>
        simp only [postLoop, h]
        rw [ih m (i + 1) (sleeps ++ [b * 2 ^ i]) c body (by omega) hshift hat1 htc h2]
        simp [delaysFrom, e1]
      | status c0 body0 =>
        have htc0 : isTransientStatus c0 = true := by
          rw [h] at h0; simpa [isTransientOutcome] using h0
        simp only [postLoop, h, transient_not_success c0 htc0, htc0,
          Bool.false_eq_true, if_false, if_true]
        rw [ih m (i + 1) (sleeps ++ [b * 2 ^ i]) c body (by omega) hshift hat1 htc h2]
        simp [delaysFrom, e1]

theorem delaysFrom_range (b : ℚ) :
    ∀ n i, delaysFrom b i n = (List.range n).map (fun k => b * 2 ^ (i + k)) := by
  intro n
  induction n with
  | zero => intro i; simp [delaysFrom]
  | succ m ih =>
    intro i
    rw [List.range_succ_eq_map]
    simp [delaysFrom, ih (i + 1)]
    intro a _
    left
    omega

/-! ## Helper lemmas about the payload salvage chain -/

theorem accept_some (fuel : Nat) (c : String) (d : PyJson)
    (h : acceptCandidate fuel c = .ok (some d)) :
    ∃ data, jsonLoads c = .ok data ∧ isDict data = true ∧
      hasKey data "pages" = true ∧
      normalizeWikiPayload fuel data = .ok d := by
  simp only [acceptCandidate] at h
  cases hj : jsonLoads c with
  | error e => simp [hj] at h
  | ok data =>
    simp only [hj] at h
    by_cases hd : (isDict data && hasKey data "pages") = true
    · rw [if_pos hd] at h
      cases hn : normalizeWikiPayload fuel data with
      | error e => simp [hn] at h
      | ok d2 =>
        simp only [hn] at h
        injection h with h
        injection h with h
        subst h
        simp only [Bool.and_eq_true] at hd
        exact ⟨data, rfl, hd.1, hd.2, hn⟩
    · rw [if_neg hd] at h
      cases h

theorem orElseE_some (a b : ExtractResult) (d : PyJson)
    (h : orElseE a b = .ok (some d)) :
    a = .ok (some d) ∨ b = .ok (some d) := by
  unfold orElseE at h
  cases a with
  | error e => cases h
  | ok o =>
    cases o with
    | some v => exact Or.inl h
    | none => exact Or.inr h

theorem tryBlocks_some (fuel : Nat) :
    ∀ bs d, tryBlocks fuel bs = .ok (some d) →
      ∃ c, acceptCandidate fuel c = .ok (some d) := by
  intro bs
  induction bs with
  | nil => intro d h; cases h
  | cons b rest ih =>
    intro d h
    simp only [tryBlocks] at h
    by_cases he : (pyStrip b).isEmpty
    · rw [if_pos he] at h
      exact ih d h
    · rw [if_neg he] at h
      rcases orElseE_some _ _ _ h with h1 | h1
      · rcases orElseE_some _ _ _ h1 with h2 | h2
        · exact ⟨pyStrip b, h2⟩
        · exact ⟨repairJson (pyStrip b), h2⟩
      · exact ih d h1

theorem tryAttempt_some (fuel : Nat) (t : String) (d : PyJson)
    (h : tryAttempt fuel t = .ok (some d)) :
    ∃ c, acceptCandidate fuel c = .ok (some d) := by
  simp only [tryAttempt] at h
  by_cases he : t.isEmpty
  · rw [if_pos he] at h; cases h
  · rw [if_neg he] at h
    rcases orElseE_some _ _ _ h with h1 | h1
    · exact ⟨t, h1⟩
    · cases hf : posFind t.data lcurl with
      | none =>
        cases hr : posRfind t.data rcurl with
        | none => simp only [hf, hr] at h1; cases h1
        | some en => simp only [hf, hr] at h1; cases h1
      | some st =>
        cases hr : posRfind t.data rcurl with
        | none => simp only [hf, hr] at h1; cases h1
        | some en =>
          simp only [hf, hr] at h1
          by_cases hlt : st < en
          · rw [if_pos hlt] at h1
            rcases orElseE_some _ _ _ h1 with h2 | h2
            · exact ⟨String.mk ((t.data.drop st).take (en - st + 1)), h2⟩
            · exact ⟨repairJson (String.mk ((t.data.drop st).take (en - st + 1))), h2⟩
          · rw [if_neg hlt] at h1
            cases h1

theorem walk_sum_le_total (oracle : Nat → Except String String)
    (parent : Option String) (s : UploadState) (pages : List WikiPage)
    (h : s.job.uploaded + s.job.failed + countPages pages ≤ s.job.total_pages) :
    (uploadPagesGo oracle parent s pages).1.job.uploaded +
        (uploadPagesGo oracle parent s pages).1.job.failed ≤
      (uploadPagesGo oracle parent s pages).1.job.total_pages := by
  have hu := walk_uploaded oracle parent s pages
  have hf := walk_failed oracle parent s pages
  have hs := walk_status_split oracle parent s pages
  have hle := walk_count_le oracle parent s pages
  have ht := walk_total_pages oracle parent s pages
  omega

/-! ## The claims -/

/-- C1: when the create-page call for a node raises an exception
(`oracle s.idx = .error msg`), the uploader appends exactly one result
node, marked `failed` and carrying the exception message, with no result
children; it issues exactly one create-page call there (none for the
children of the failed node), increments the `failed` counter of the job
by exactly one, leaves `uploaded` untouched, and continues the walk with
the remaining siblings from exactly that state — a failed node never
aborts the rest of the walk. -/
theorem C1_failed_node_step (oracle : Nat → Except String String)
    (parent : Option String) (s : UploadState) (title content : String)
    (children rest : List WikiPage) (msg : String)
    (h : oracle s.idx = .error msg) :
    uploadPagesGo oracle parent s (.mk title content children :: rest) =
      ((uploadPagesGo oracle parent
          { s with idx := s.idx + 1,
                   calls := s.calls ++ [⟨title, content, parent⟩],
                   job := { s.job with failed := s.job.failed + 1 } } rest).1,
        PageResult.mk title "" "failed" msg [] ::
          (uploadPagesGo oracle parent
              { s with idx := s.idx + 1,
                       calls := s.calls ++ [⟨title, content, parent⟩],
                       job := { s.job with failed := s.job.failed + 1 } }
              rest).2) := by
  rcases hX : uploadPagesGo oracle parent
      { s with idx := s.idx + 1,
               calls := s.calls ++ [⟨title, content, parent⟩],
               job := { s.job with failed := s.job.failed + 1 } } rest
    with ⟨s2, rres⟩
  simp [uploadPagesGo, h, hX]

/-- C1 witness: the step theorem applied to a concrete failing call on
the tree `A(B)` followed by no siblings. -/
theorem C1_failed_node_step_witness :
    ((fun _ => (Except.error "boom" : Except String String))
        (freshState [pageAB]).idx = Except.error "boom") ∧
      uploadPagesGo (fun _ => Except.error "boom") none (freshState [pageAB])
          (WikiPage.mk "A" "a-body" [WikiPage.mk "B" "b-body" []] :: []) =
        ((uploadPagesGo (fun _ => Except.error "boom") none
            { freshState [pageAB] with
                idx := (freshState [pageAB]).idx + 1,
                calls := (freshState [pageAB]).calls ++ [⟨"A", "a-body", none⟩],
                job := { (freshState [pageAB]).job with
                           failed := (freshState [pageAB]).job.failed + 1 } }
            []).1,
          PageResult.mk "A" "" "failed" "boom" [] ::
            (uploadPagesGo (fun _ => Except.error "boom") none
                { freshState [pageAB] with
                    idx := (freshState [pageAB]).idx + 1,
                    calls := (freshState [pageAB]).calls ++ [⟨"A", "a-body", none⟩],
                    job := { (freshState [pageAB]).job with
                               failed := (freshState [pageAB]).job.failed + 1 } }
                []).2) :=
  ⟨rfl,
    C1_failed_node_step (fun _ => Except.error "boom") none (freshState [pageAB])
      "A" "a-body" [WikiPage.mk "B" "b-body" []] [] "boom" rfl⟩

/-- C2 (amended): the results tree is not built at job creation — a fresh
job starts with an empty `pages` list — and is grown incrementally during
the walk: at every level there is exactly one result node per attempted
input node, in input order with matching titles, and a `failed` result
node has no result children at all (the whole input subtree below it is
skipped, so descendants of a failed node do not appear in the results
tree, in particular not as `pending` nodes). -/
theorem C2_results_tree_incremental :
    (∀ (jid : String) (req : WikiCreateRequest),
        (runWikiCreation jid req).pages = []) ∧
    (∀ (oracle : Nat → Except String String) (parent : Option String)
        (s : UploadState) (pages : List WikiPage),
        shapeOkList pages (uploadPagesGo oracle parent s pages).2 = true) :=
  ⟨fun _ _ => rfl, walk_shape⟩

/-- C2 counterexample: for the input tree `A(B)` with a failing
create-page call, the job is created with an empty results tree (not one
of the same shape as the input), and after the walk the failed node `A`
has no result children at all — the descendant `B` is absent from the
results tree rather than present with status `pending`. -/
theorem C2_counterexample :
    (runWikiCreation "job1" reqAB).pages = [] ∧
    (executeJob envFail reqAB (runWikiCreation "job1" reqAB)).pages =
      [PageResult.mk "A" "" "failed" "boom" []] := by
  constructor
  · rfl
  · simp [executeJob, resolveWorkspaceId, resolveDocId, pyTruthy, reqAB,
      envFail, runWikiCreation, countPages, pageAB, uploadPagesGo]
    rfl

/-- C5: the salvage extractor is not exception-free: on the well-formed
JSON input whose single page carries the non-iterable `children` value
`1`, `_normalize_pages` iterates that value and the resulting `TypeError`
(caught nowhere, since the extractor catches only
`JSONDecodeError`/`ValueError`) escapes to the caller, contradicting the
never-raises contract. -/
theorem C5_extractor_raises_on_noniterable_children :
    tryParseWikiJson "\x7b\"pages\": [\x7b\"children\": 1\x7d]\x7d" =
      .error (.typeError (notIterableMsg "int")) := rfl

/-- C7: the job allocated for a request has `total_pages` equal to the
number of nodes of the full input tree, counting every node recursively;
in particular two top-level pages with two children each count as 6. -/
theorem C7_total_pages_count :
    (∀ (jid : String) (req : WikiCreateRequest),
        (runWikiCreation jid req).total_pages = numNodesList req.pages) ∧
    (runWikiCreation "job1" ⟨"Wiki", {}, pagesTwoByTwo⟩).total_pages = 6 := by
  constructor
  · intro jid req
    simpa [runWikiCreation] using countPages_eq_numNodes req.pages
  · simp [runWikiCreation, pagesTwoByTwo, countPages]

/-- C8: with every create-page call succeeding (`oracle i = .ok (ids i)`),
the calls issued by the uploader are exactly the depth-first,
left-to-right trace in which each node reached by call number `i` passes
`ids i` as the parent reference of its children; on the spec example
`A(B(D), C)` the call order is `A, B, D, C`, with `D` carrying the remote
id of `B` (`pg1`) and `B`, `C` carrying the remote id of `A` (`pg0`). -/
theorem C8_dfs_call_order (ids : Nat → String) (parent : Option String)
    (s : UploadState) (pages : List WikiPage) :
    ((uploadPagesGo (fun i => .ok (ids i)) parent s pages).1.calls =
        s.calls ++ (dfsCalls ids parent s.idx pages).1 ∧
      (uploadPagesGo (fun i => .ok (ids i)) parent s pages).1.idx =
        (dfsCalls ids parent s.idx pages).2) ∧
    (uploadPagesGo (fun i => .ok ("pg" ++ toString i)) none
        (freshState pagesABDC) pagesABDC).1.calls =
      [⟨"A", "", none⟩, ⟨"B", "", some "pg0"⟩, ⟨"D", "", some "pg1"⟩,
       ⟨"C", "", some "pg0"⟩] := by
  refine ⟨walk_calls_ok ids parent s pages, ?_⟩
  simp [uploadPagesGo, freshState, pagesABDC, runWikiCreation, countPages]
  exact ⟨rfl, rfl, rfl⟩

/-- C10: the `skipped` field of a job is `0` at creation and still `0`
after the background task has run: no operation of the pipeline ever
assigns or increments it. -/
theorem C10_skipped_always_zero (env : ExecEnv) (req : WikiCreateRequest)
    (jid : String) :
    (runWikiCreation jid req).skipped = 0 ∧
    (executeJob env req (runWikiCreation jid req)).skipped = 0 := by
  refine ⟨rfl, ?_⟩
  unfold executeJob
  cases h1 : resolveWorkspaceId env req.target with
  | error e => simp [runWikiCreation]
  | ok w =>
    cases h2 : resolveDocId env req.target with
    | error e => simp [runWikiCreation]
    | ok did => simp [walk_skipped, runWikiCreation]

/-- C3: the retry loop of `_post` makes at most `retries + 1` network
attempts; when the first `retries` outcomes are all transient (connection
error or status 429/500/502/503), each attempt `i` sleeps
`base_delay * 2 ^ i` and the final attempt is returned or raised as-is;
a non-transient non-2xx status after a transient prefix is fatal
immediately, with no further sleep or attempt; with `retries = 3`,
`base_delay = 1` and a server always answering 503, exactly 4 attempts
are made with sleeps 1, 2, 4 between them and the call fails. -/
theorem C3_retry_backoff :
    (∀ (r : Nat) (b : ℚ) (attempts : Nat → PostOutcome),
        (post r b attempts).attemptsMade ≤ r + 1) ∧
    (∀ (r : Nat) (b : ℚ) (attempts : Nat → PostOutcome),
        (∀ j, j < r → isTransientOutcome (attempts j) = true) →
        post r b attempts =
          ⟨finalOutcome (attempts r),
            (List.range r).map (fun k => b * 2 ^ k), r + 1⟩) ∧
    (∀ (r k c : Nat) (b : ℚ) (attempts : Nat → PostOutcome) (body : String),
        k < r →
        (∀ j, j < k → isTransientOutcome (attempts j) = true) →
        attempts k = .status c body →
        isTransientStatus c = false →
        is2xx c = false →
        post r b attempts =
          ⟨.error (.httpStatus c),
            (List.range k).map (fun j => b * 2 ^ j), k + 1⟩) ∧
    post 3 1 (fun _ => .status 503 "") =
      ⟨.error (.httpStatus 503), [1, 2, 4], 4⟩ := by
  refine ⟨?_, ?_, ?_, ?_⟩
  · intro r b attempts
    simpa [post] using postLoop_bound attempts b r 0 []
  · intro r b attempts h
    have := postLoop_all_transient attempts b r 0 []
      (by intro j hj; simpa using h j hj)
    simpa [post, delaysFrom_range] using this
  · intro r k c b attempts body h1 h2 h3 h4 h5
    have := postLoop_fatal attempts b k r 0 [] c body h1
      (by intro j hj; simpa using h2 j hj)
      (by simpa using h3) h4 h5
    simpa [post, delaysFrom_range] using this
  · norm_num [post, postLoop, isSuccessStatus, isTransientStatus, is2xx]

/-- C3 witness: the fatal branch applied to a server answering 404 on the
first attempt: one attempt, no sleeps, immediate failure. -/
theorem C3_retry_backoff_witness :
    (0 : Nat) < 3 ∧ isTransientStatus 404 = false ∧ is2xx 404 = false ∧
    post 3 1 (fun _ => .status 404 "nf") =
      ⟨.error (.httpStatus 404),
        (List.range 0).map (fun j => (1 : ℚ) * 2 ^ j), 0 + 1⟩ :=
  ⟨by decide, rfl, rfl,
    C3_retry_backoff.2.2.1 3 0 404 1 (fun _ => .status 404 "nf") "nf"
      (by decide) (fun j hj => absurd hj (by omega)) rfl rfl rfl⟩

/-- C4 (amended): whenever the salvage extractor returns a payload object
instead of NotFound, that object is the output of
`_normalize_wiki_payload` on a located dict containing a `pages` key —
but the code never checks that the `pages` array is non-empty after
normalization, so an object with an empty `pages` array can be
returned. -/
theorem C4_extract_normalized (text : String) (d : PyJson)
    (h : tryParseWikiJson text = .ok (some d)) :
    ∃ data, isDict data = true ∧ hasKey data "pages" = true ∧
      normalizeWikiPayload (text.data.length + 1) data = .ok d := by
  simp only [tryParseWikiJson] at h
  rcases orElseE_some _ _ _ h with h1 | h1
  · obtain ⟨c, hc⟩ := tryBlocks_some _ _ _ h1
    obtain ⟨data, _, h3, h4, h5⟩ := accept_some _ _ _ hc
    exact ⟨data, h3, h4, h5⟩
  · rcases orElseE_some _ _ _ h1 with h2 | h2
    · obtain ⟨c, hc⟩ := tryAttempt_some _ _ _ h2
      obtain ⟨data, _, h3, h4, h5⟩ := accept_some _ _ _ hc
      exact ⟨data, h3, h4, h5⟩
    · obtain ⟨c, hc⟩ := tryAttempt_some _ _ _ h2
      obtain ⟨data, _, h3, h4, h5⟩ := accept_some _ _ _ hc
      exact ⟨data, h3, h4, h5⟩

/-- C4 witness: the amended theorem applied to a one-page payload. -/
theorem C4_extract_normalized_witness :
    tryParseWikiJson "\x7b\"pages\": [\x7b\"title\": \"A\"\x7d]\x7d" =
        .ok (some (PyJson.obj [("pages", PyJson.arr
          [PyJson.obj [("title", PyJson.str "A"),
                       ("children", PyJson.arr [])]])])) ∧
      ∃ data, isDict data = true ∧ hasKey data "pages" = true ∧
        normalizeWikiPayload
            ("\x7b\"pages\": [\x7b\"title\": \"A\"\x7d]\x7d".data.length + 1)
            data =
          .ok (PyJson.obj [("pages", PyJson.arr
            [PyJson.obj [("title", PyJson.str "A"),
                         ("children", PyJson.arr [])]])]) :=
  ⟨rfl, C4_extract_normalized _ _ rfl⟩

/-- C4 counterexample: on the input whose `pages` array is empty, the
extractor returns the payload object with the empty `pages` array instead
of NotFound — refuting the claim that an object with an empty pages array
after normalization is never returned. -/
theorem C4_counterexample :
    tryParseWikiJson "\x7b\"pages\": []\x7d" =
      .ok (some (.obj [("pages", .arr [])])) := rfl

/-- C6: for a job allocated by `run_wiki_creation` and executed by
`_execute_job`: if workspace resolution raises, the job ends `failed`
with that message in `error`; if doc resolution raises, likewise; if both
pre-walk steps succeed, the terminal status is `completed` exactly when
the `failed` counter is zero and is `failed` otherwise (a job never ends
the walk in any other state), and the top-level `error` stays empty even
when per-node failures occurred during the walk. -/
theorem C6_terminal_status (env : ExecEnv) (req : WikiCreateRequest)
    (jid : String) :
    (∀ e, resolveWorkspaceId env req.target = .error e →
        (executeJob env req (runWikiCreation jid req)).status =
            JobStatus.failed ∧
          (executeJob env req (runWikiCreation jid req)).error = e) ∧
    (∀ w e, resolveWorkspaceId env req.target = .ok w →
        resolveDocId env req.target = .error e →
        (executeJob env req (runWikiCreation jid req)).status =
            JobStatus.failed ∧
          (executeJob env req (runWikiCreation jid req)).error = e) ∧
    (∀ w did, resolveWorkspaceId env req.target = .ok w →
        resolveDocId env req.target = .ok did →
        ((executeJob env req (runWikiCreation jid req)).status =
              JobStatus.completed ↔
            (executeJob env req (runWikiCreation jid req)).failed = 0) ∧
          ((executeJob env req (runWikiCreation jid req)).failed ≠ 0 →
            (executeJob env req (runWikiCreation jid req)).status =
              JobStatus.failed) ∧
          (executeJob env req (runWikiCreation jid req)).error = "") := by
  refine ⟨?_, ?_, ?_⟩
  · intro e h
    simp [executeJob, h]
  · intro w e h1 h2
    simp [executeJob, h1, h2]
  · intro w did h1 h2
    simp only [executeJob, h1, h2]
    refine ⟨?_, ?_, ?_⟩
    · by_cases hf :
        (uploadPagesGo env.pageOracle req.target.parent_page_id
          { job := { { { runWikiCreation jid req with
                          status := JobStatus.running } with
                        workspace_id := w } with doc_id := did },
            idx := 0, calls := [] } req.pages).1.job.failed = 0
      · simp [hf]
      · simp [hf]
    · by_cases hf :
        (uploadPagesGo env.pageOracle req.target.parent_page_id
          { job := { { { runWikiCreation jid req with
                          status := JobStatus.running } with
                        workspace_id := w } with doc_id := did },
            idx := 0, calls := [] } req.pages).1.job.failed = 0
      · simp [hf]
      · simp [hf]
    · simp [walk_error_field, runWikiCreation]

/-- C6 witness: the all-succeeding environment on the `A(B)` request. -/
theorem C6_terminal_status_witness :
    resolveWorkspaceId envOk reqAB.target = .ok "w1" ∧
    resolveDocId envOk reqAB.target = .ok "d1" ∧
    (((executeJob envOk reqAB (runWikiCreation "job1" reqAB)).status =
          JobStatus.completed ↔
        (executeJob envOk reqAB (runWikiCreation "job1" reqAB)).failed = 0) ∧
      ((executeJob envOk reqAB (runWikiCreation "job1" reqAB)).failed ≠ 0 →
        (executeJob envOk reqAB (runWikiCreation "job1" reqAB)).status =
          JobStatus.failed) ∧
      (executeJob envOk reqAB (runWikiCreation "job1" reqAB)).error = "") :=
  ⟨rfl, rfl,
    (C6_terminal_status envOk reqAB "job1").2.2 "w1" "d1" rfl rfl⟩

/-- C9: over any walk step the `uploaded` and `failed` counters (natural
numbers, hence non-negative) only grow, their joint growth is exactly the
number of result nodes produced (each processed node increments exactly
one of them by one), that number never exceeds the node count of the
input forest, and consequently a job run from a fresh allocation ends
with `uploaded + failed ≤ total_pages`. -/
theorem C9_counter_invariants :
    (∀ (oracle : Nat → Except String String) (parent : Option String)
        (s : UploadState) (pages : List WikiPage),
        s.job.uploaded ≤ (uploadPagesGo oracle parent s pages).1.job.uploaded ∧
        s.job.failed ≤ (uploadPagesGo oracle parent s pages).1.job.failed ∧
        (uploadPagesGo oracle parent s pages).1.job.uploaded +
            (uploadPagesGo oracle parent s pages).1.job.failed =
          s.job.uploaded + s.job.failed +
            countResults (uploadPagesGo oracle parent s pages).2 ∧
        countResults (uploadPagesGo oracle parent s pages).2 ≤
          countPages pages) ∧
    (∀ (env : ExecEnv) (req : WikiCreateRequest) (jid : String),
        (executeJob env req (runWikiCreation jid req)).uploaded +
            (executeJob env req (runWikiCreation jid req)).failed ≤
          (executeJob env req (runWikiCreation jid req)).total_pages) := by
  constructor
  · intro oracle parent s pages
    have hu := walk_uploaded oracle parent s pages
    have hf := walk_failed oracle parent s pages
    have hs := walk_status_split oracle parent s pages
    have hle := walk_count_le oracle parent s pages
    exact ⟨by omega, by omega, by omega, hle⟩
  · intro env req jid
    unfold executeJob
    cases h1 : resolveWorkspaceId env req.target with
    | error e => simp [runWikiCreation]
    | ok w =>
      cases h2 : resolveDocId env req.target with
      | error e => simp [runWikiCreation]
      | ok did =>
        exact walk_sum_le_total env.pageOracle req.target.parent_page_id _
          req.pages (by simp [runWikiCreation])

end Orchestrator
